import Mathlib

/-!
Verification of the RepoDoctor backend (`src/backend`): URL parsing
(`github_issues.parse_repo`), evidence extraction (`main.walk_repo_summary`,
`main.read_text_file`), the heuristic scanner (`main.basic_heuristics`),
AI-review orchestration (`ai_review.call_ai_review`, `main.analyze_repo`)
and issue publishing (`github_issues.create_issue`, `main.create_issues`),
shallowly embedded in Lean. External collaborators (git clone, the OS file
walk, the OpenAI model call, the GitHub HTTP API) are passed in as explicit
outcome values / functions; Python exceptions become `Except` errors.
-/

namespace RepoDoctor

/-- Does the character list start with `sub`? Helper for the substring test. -/
def listStartsWith : List Char → List Char → Bool
  | _, [] => true
  | [], _ :: _ => false
  | c :: cs, d :: ds => c == d && listStartsWith cs ds

/-- Does `sub` occur as a contiguous run in `l`? -/
def listHasSub : List Char → List Char → Bool
  | [], sub => sub.isEmpty
  | c :: cs, sub => listStartsWith (c :: cs) sub || listHasSub cs sub

/-- Python's `sub in s` substring test. -/
def containsSub (s sub : String) : Bool := listHasSub s.data sub.data

/-- Python's slice `s[:n]` / `f.read(n)`: at most the first `n` characters. -/
def strTake (s : String) (n : Nat) : String := String.mk (s.data.take n)

/-- Python's `str.lower()`, character-wise. -/
def strLower (s : String) : String := String.mk (s.data.map Char.toLower)

/-- Python's `str.strip()`: drop leading and trailing whitespace. -/
def strTrim (s : String) : String :=
  String.mk (((s.data.dropWhile Char.isWhitespace).reverse.dropWhile
    Char.isWhitespace).reverse)

/-- Python's `str.strip(c)` for a one-character argument: drop leading and
trailing copies of `c`. -/
def stripCharEnds (c : Char) (s : String) : String :=
  String.mk (((s.data.dropWhile (fun d => d == c)).reverse.dropWhile
    (fun d => d == c)).reverse)

/-- Python's `str.startswith`. -/
def strStarts (s pre : String) : Bool := listStartsWith s.data pre.data

/-- Python's `str.endswith`. -/
def strEnds (s suf : String) : Bool := listStartsWith s.data.reverse suf.data.reverse

/-- Split a character list at every occurrence of `c` (Python `s.split(c)`). -/
def splitChar (c : Char) : List Char → List (List Char)
  | [] => [[]]
  | d :: ds =>
    match splitChar c ds with
    | [] => [[]]
    | g :: gs => if d == c then [] :: g :: gs else (d :: g) :: gs

/-- Python `s.split(c)` on strings. -/
def strSplitChar (c : Char) (s : String) : List String :=
  (splitChar c s.data).map String.mk

/-- Python `sep.join(xs)`. -/
def joinSep (sep : String) : List String → String
  | [] => ""
  | [x] => x
  | x :: y :: rest => x ++ sep ++ joinSep sep (y :: rest)

/-- Python `s.replace(old, new)` for a one-character `old`. -/
def replaceChar (c : Char) (new : String) (s : String) : String :=
  joinSep new (strSplitChar c s)

/-- First occurrence of `sub` in a character list, split into the parts
before and after it; `none` when absent. -/
def breakAtSub (sub : List Char) : List Char → Option (List Char × List Char)
  | [] => if sub.isEmpty then some ([], []) else none
  | c :: cs =>
    if listStartsWith (c :: cs) sub then some ([], (c :: cs).drop sub.length)
    else
      match breakAtSub sub cs with
      | none => none
      | some (pre, post) => some (c :: pre, post)

/-- Result of Python's `urllib.parse.urlparse`, modelled for
`scheme://netloc/path`-shaped URLs (the only shapes this backend handles). -/
structure UrlParts where
  scheme : String
  netloc : String
  path : String

/-- Python's `urllib.parse.urlparse`, restricted to `scheme://netloc/path`
URLs: everything before the first `://` is the scheme, then the netloc runs
up to the next `/`, and the path is the rest. A string without `://` is all
path. -/
def urlparse (s : String) : UrlParts :=
  match breakAtSub ("://".data) s.data with
  | none => ⟨"", "", s⟩
  | some (pre, post) =>
    ⟨String.mk pre, String.mk (post.takeWhile (fun c => c != '/')),
     String.mk (post.dropWhile (fun c => c != '/'))⟩

/-- Python's `re.sub(r"\.git$", "", s)`: drop one trailing `.git`. -/
def stripGitSuffix (s : String) : String :=
  if strEnds s ".git" then strTake s (s.length - 4) else s

/-- Model of `github_issues.parse_repo`: reject a non-`github.com` netloc, split the
path on `/` dropping empty segments, require at least two segments, return
the first as owner and the second (minus a trailing `.git`) as repo. -/
def parse_repo (repo_url : String) : Except String (String × String) :=
  let u := urlparse (strTrim repo_url)
  if strLower u.netloc != "github.com" then
    Except.error "Repo URL must be a github.com URL"
  else
    match (strSplitChar '/' u.path).filter (fun p => p != "") with
    | owner :: repo :: _ => Except.ok (owner, stripGitSuffix repo)
    | _ => Except.error "Repo URL must look like https://github.com/owner/repo"

/-- Model of `main.safe_repo_name`: the URL path with surrounding slashes stripped and
inner slashes replaced by `__`, or `"repo"` when that is empty. -/
def safe_repo_name (repo_url : String) : String :=
  let p := urlparse repo_url
  let s := replaceChar '/' "__" (stripCharEnds '/' p.path)
  if s == "" then "repo" else s

/-- The `skip` list of `main.walk_repo_summary`: noise directories excluded
from the walk by substring match on the directory path. -/
def skipDirs : List String := [".git", "node_modules", "__pycache__", ".venv", "dist", "build"]

/-- The `important` allow-list of `main.walk_repo_summary`: key filenames
whose top-level presence/contents are recorded. -/
def important : List String :=
  ["README.md", "LICENSE", ".env.example", "pyproject.toml", "requirements.txt",
   "Dockerfile", ".github", "SECURITY.md"]

/-- The `max_files` default of `main.walk_repo_summary`. -/
def maxFiles : Nat := 200

/-- The `max_chars` default of `main.read_text_file`. -/
def maxFileChars : Nat := 8000

/-- What the filesystem holds at a top-level allow-listed name: a directory,
or a file with its raw content (`readFails` models an `open`/`read` raising). -/
inductive KeyEntry where
  | dir : KeyEntry
  | file (readFails : Bool) (content : String) : KeyEntry

/-- The filesystem facts `main.walk_repo_summary` consumes: the output of
`os.walk(root)` as a list of (dirpath, filenames) pairs, `os.path.relpath`
against the root, and the top-level lookup used for the allow-list. -/
structure FsModel where
  walkOut : List (String × List String)
  relpath : String → String
  keyLookup : String → Option KeyEntry

/-- Model of `main.read_text_file`: on any exception return `""`, otherwise at most
`max_chars` characters of the file. -/
def read_text_file (readFails : Bool) (content : String) (max_chars : Nat) : String :=
  if readFails then "" else strTake content max_chars

/-- The inner `for fn in filenames` loop of `main.walk_repo_summary`: append
`os.path.join(rel, fn)` until `len(files) >= max_files`, then `break`. -/
def appendUpTo (max_files : Nat) (rel : String) : List String → List String → List String
  | [], files => files
  | fn :: rest, files =>
    if max_files ≤ files.length then files
    else appendUpTo max_files rel rest (files ++ [rel ++ "/" ++ fn])

/-- The file-collection loop of `main.walk_repo_summary`: skip any walked
directory whose path contains a `skip` entry as a substring, else record its
files relative to the root. -/
def walkFiles (fs : FsModel) (max_files : Nat) : List String :=
  fs.walkOut.foldl
    (fun files e =>
      if skipDirs.any (fun s => containsSub e.1 s) then files
      else appendUpTo max_files (fs.relpath e.1) e.2 files)
    []

/-- Model of `main.walk_repo_summary`: the capped file listing plus the mapping from
each present allow-listed name to `"DIRECTORY_PRESENT"` or its truncated
text. -/
def walk_repo_summary (fs : FsModel) (max_files : Nat) :
    List String × List (String × String) :=
  let files := walkFiles fs max_files
  let key_contents := important.filterMap (fun name =>
    match fs.keyLookup name with
    | none => none
    | some KeyEntry.dir => some (name, "DIRECTORY_PRESENT")
    | some (KeyEntry.file bad content) =>
      some (name, read_text_file bad content maxFileChars))
  (files.take max_files, key_contents)

/-- Python's `name in key_contents` dict-membership test. -/
def hasKey (kc : List (String × String)) (k : String) : Bool :=
  kc.any (fun p => p.1 == k)

/-- Model of `main.basic_heuristics`: presence/absence rules in fixed order over the
evidence set; pure, no I/O. -/
def basic_heuristics (files : List String) (key_contents : List (String × String)) :
    List String × List String × List String :=
  let quickwins :=
    (if hasKey key_contents "README.md" then [] else
      ["Add a README.md with setup and usage instructions."]) ++
    (if hasKey key_contents ".env.example" then [] else
      ["Add a .env.example for environment variables."]) ++
    (if hasKey key_contents "Dockerfile" then [] else
      ["Add a Dockerfile for reproducible builds."])
  let risks :=
    (if hasKey key_contents "LICENSE" then [] else
      ["No LICENSE file found."]) ++
    (if files.any (fun f => containsSub (strLower f) "test") then [] else
      ["No obvious tests detected."])
  let findings :=
    if 180 < files.length then ["Large repo: consider adding docs/architecture.md."] else []
  (findings, quickwins, risks)

/-- A JSON value, as produced by `json.loads` on the model's output text. -/
inductive JVal where
  | jnull : JVal
  | jbool (b : Bool) : JVal
  | jnum (n : Int) : JVal
  | jstr (s : String) : JVal
  | jarr (xs : List JVal) : JVal
  | jobj (fields : List (String × JVal)) : JVal

/-- Field lookup in a JSON object (first binding wins). -/
def lookupField (fields : List (String × JVal)) (k : String) : Option JVal :=
  (fields.find? (fun p => p.1 == k)).map Prod.snd

/-- The `severity` enumeration of `ai_review.REVIEW_SCHEMA`. -/
def severityEnum : List String := ["critical", "high", "medium", "low"]

/-- Validation of one `top_5` item against `ai_review.REVIEW_SCHEMA`: an
object with no properties beyond title/severity/evidence/fix, all four
required and strings, severity drawn from the enumeration. -/
def issueAccepts : JVal → Bool
  | JVal.jobj fs =>
    fs.all (fun p => ["title", "severity", "evidence", "fix"].contains p.1) &&
    (match lookupField fs "title" with
     | some (JVal.jstr _) => true
     | _ => false) &&
    (match lookupField fs "severity" with
     | some (JVal.jstr s) => severityEnum.contains s
     | _ => false) &&
    (match lookupField fs "evidence" with
     | some (JVal.jstr _) => true
     | _ => false) &&
    (match lookupField fs "fix" with
     | some (JVal.jstr _) => true
     | _ => false)
  | _ => false

/-- Validation against `ai_review.REVIEW_SCHEMA` (strict, additional
properties forbidden): required string `one_liner`, required `top_5` array
of exactly 5 valid issue objects, required `next_7_days_plan` array of
strings. This is the schema the provider enforces (`strict: True`). -/
def schemaAccepts : JVal → Bool
  | JVal.jobj fs =>
    fs.all (fun p => ["one_liner", "top_5", "next_7_days_plan"].contains p.1) &&
    (match lookupField fs "one_liner" with
     | some (JVal.jstr _) => true
     | _ => false) &&
    (match lookupField fs "top_5" with
     | some (JVal.jarr xs) => xs.length == 5 && xs.all issueAccepts
     | _ => false) &&
    (match lookupField fs "next_7_days_plan" with
     | some (JVal.jarr xs) =>
       xs.all (fun x => match x with | JVal.jstr _ => true | _ => false)
     | _ => false)
  | _ => false

/-- The user payload `ai_review.call_ai_review` sends to the model. -/
structure ReviewPayload where
  repo_url : String
  file_tree : String
  key_files : List (String × String)

/-- Model of `ai_review.call_ai_review`: raise if the API key is absent or empty,
else build the bounded payload (first 200 tree entries newline-joined, each
key-file value re-truncated to 4000 characters unless it is the directory
sentinel) and make one model call. `modelCall` stands for the external
`client.responses.create` followed by `json.loads(resp.output_text)`: an
error models any exception in that call (network, provider rejection, JSON
parse failure); a success carries the parsed JSON, which is returned as is. -/
def call_ai_review (api_key : Option String) (repo_url : String)
    (file_tree : List String) (key_files : List (String × String))
    (modelCall : ReviewPayload → Except String JVal) : Except String JVal :=
  if api_key.getD "" == "" then
    Except.error "OPENAI_API_KEY missing. Put it in repodoctor/.env"
  else
    let file_tree_text := joinSep "\n" (file_tree.take 200)
    let key_file_snips := key_files.map (fun p =>
      if p.2 == "DIRECTORY_PRESENT" then (p.1, "DIRECTORY_PRESENT")
      else (p.1, strTake p.2 4000))
    modelCall ⟨repo_url, file_tree_text, key_file_snips⟩

/-- Filesystem / network side effects of `main.analyze_repo`, in program
order: `tempfile.mkdtemp`, `Repo.clone_from`, `shutil.rmtree`. -/
inductive Effect where
  | mkdtempE (dir : String) : Effect
  | cloneE (url dest : String) : Effect
  | rmtreeE (dir : String) : Effect

/-- Is path `p` equal to `root` or strictly inside the tree rooted there? -/
def pathUnder (root p : String) : Bool :=
  root == p || strStarts p (root ++ "/")

/-- Effect semantics on the set (list) of existing filesystem paths:
`mkdtemp`/`clone` create a path, `rmtree` removes the whole tree
(`ignore_errors=True`: it never raises). -/
def applyEffect (dirs : List String) : Effect → List String
  | Effect.mkdtempE d => dirs ++ [d]
  | Effect.cloneE _ dest => dirs ++ [dest]
  | Effect.rmtreeE d => dirs.filter (fun p => !(pathUnder d p))

/-- Run a trace of effects over an initial filesystem state. -/
def runEffects (dirs : List String) (effs : List Effect) : List String :=
  effs.foldl applyEffect dirs

/-- The successful response dict of `main.analyze_repo`, field for field. -/
structure AnalyzeResult where
  repo_url : String
  file_count_sampled : Nat
  key_files_found : List String
  findings : List String
  quick_wins : List String
  risks : List String
  next_steps : List String
  openai_key_present : Bool
  ai_error : Option String
  ai_review : Option JVal

/-- What `main.analyze_repo` returns when it does not raise: either the
immediate `{"error": ...}` dict or the full result dict. -/
inductive AnalyzeResponse where
  | invalid (msg : String) : AnalyzeResponse
  | result (r : AnalyzeResult) : AnalyzeResponse

/-- The external collaborators of `main.analyze_repo`: the `OPENAI_API_KEY`
environment value, the model call, the outcome of `Repo.clone_from`, and the
filesystem contents seen by the extractor. -/
structure AnalyzeDeps where
  openai_api_key : Option String
  modelCall : ReviewPayload → Except String JVal
  cloneResult : Except String Unit
  fs : FsModel

/-- Model of `main.analyze_repo`: trim the URL and require the `https://github.com/`
trusted-host pre-check, else return the error dict at once (no effects);
make a scratch directory, clone into it (a clone failure propagates as an
exception — `Except.error` — but the `finally` still removes the scratch
tree); extract evidence, scan, call the review isolating its failure into
`ai_error`, and assemble the result. The second component is the trace of
filesystem/network effects performed. -/
def analyze_repo (req_repo_url : String) (deps : AnalyzeDeps) (tmp_root : String) :
    Except String AnalyzeResponse × List Effect :=
  let repo_url := strTrim req_repo_url
  if !(strStarts repo_url "https://github.com/") then
    (Except.ok (AnalyzeResponse.invalid "Invalid GitHub repo URL"), [])
  else
    let dest := tmp_root ++ "/" ++ safe_repo_name repo_url
    let effs := [Effect.mkdtempE tmp_root, Effect.cloneE repo_url dest,
      Effect.rmtreeE tmp_root]
    match deps.cloneResult with
    | Except.error e => (Except.error e, effs)
    | Except.ok _ =>
      let ev := walk_repo_summary deps.fs maxFiles
      let h := basic_heuristics ev.1 ev.2
      let rv := call_ai_review deps.openai_api_key repo_url ev.1 ev.2 deps.modelCall
      let ai_review := match rv with
        | Except.ok r => some r
        | Except.error _ => none
      let ai_error := match rv with
        | Except.ok _ => none
        | Except.error e => some e
      (Except.ok (AnalyzeResponse.result
        { repo_url := repo_url
          file_count_sampled := ev.1.length
          key_files_found := ev.2.map Prod.fst
          findings := h.1
          quick_wins := h.2.1
          risks := h.2.2
          next_steps := ["Add CI + basic tests", "Document env vars and run steps",
            "Add Docker", "Run a dependency security audit"]
          openai_key_present := !(deps.openai_api_key.getD "" == "")
          ai_error := ai_error
          ai_review := ai_review }), effs)

/-- One issue record of the publish request (`req.issues` entries). -/
structure IssueRec where
  title : String
  severity : String
  evidence : String
  fix : String

/-- The HTTP response of the issue-tracker collaborator: status, raw body
text, and the `html_url` of the parsed JSON body. -/
structure TrackerResponse where
  status : Nat
  text : String
  html_url : String

/-- Model of `github_issues.create_issue`: raise `RuntimeError` carrying status and
the body truncated to 300 characters when the status is `>= 400`, else
return the parsed response. `resp` is the collaborator's answer to this
POST. -/
def create_issue (resp : TrackerResponse) : Except String TrackerResponse :=
  if 400 ≤ resp.status then
    Except.error ("GitHub API error " ++ toString resp.status ++ ": " ++
      strTake resp.text 300)
  else
    Except.ok resp

/-- The issue body template of `main.create_issues`. -/
def issue_body (it : IssueRec) : String :=
  "**Severity:** " ++ it.severity ++ "\n\n**Evidence:**\n" ++ it.evidence ++
  "\n\n**Suggested fix:**\n" ++ it.fix ++ "\n\n_Created by RepoDoctor_"

/-- The loop of `main.create_issues` over the (already capped) issue list:
on each tracker failure the exception aborts the rest; the second component
records every issue actually sent to the tracker, in order. -/
def create_issues_loop (token owner repo : String)
    (tracker : String → String → String → String → String → TrackerResponse) :
    List IssueRec → List String → List IssueRec →
    Except String (List String) × List IssueRec
  | [], created, sent => (Except.ok created, sent)
  | it :: rest, created, sent =>
    match create_issue (tracker token owner repo it.title (issue_body it)) with
    | Except.error e => (Except.error e, sent ++ [it])
    | Except.ok resp =>
      create_issues_loop token owner repo tracker rest
        (created ++ [resp.html_url]) (sent ++ [it])

/-- Model of `main.create_issues`: parse the repo URL (raising on failure), then
create an issue for each of the first 5 supplied records (`req.issues[:5]`),
collecting the created `html_url`s in order. The second component is the
trace of issues submitted to the tracker. -/
def create_issues (repo_url github_token : String) (issues : List IssueRec)
    (tracker : String → String → String → String → String → TrackerResponse) :
    Except String (List String) × List IssueRec :=
  match parse_repo repo_url with
  | Except.error e => (Except.error e, [])
  | Except.ok (owner, repo) =>
    create_issues_loop (strTrim github_token) owner repo tracker (issues.take 5) [] []

/-! Theorems. -/

/-- Truncation never exceeds the bound. -/
theorem strTake_length_le (s : String) (n : Nat) : (strTake s n).length ≤ n := by
  show (s.data.take n).length ≤ n
  exact List.length_take_le n s.data

/-- C9, as stated, is false: a 301 redirect status is not 2xx, yet
`create_issue` returns the response instead of failing, because the source
only checks `status >= 400`. -/
theorem C9_counterexample :
    300 ≤ 301 ∧ 301 < 400 ∧
    create_issue ⟨301, "moved", "u"⟩ = Except.ok ⟨301, "moved", "u"⟩ :=
  ⟨by decide, by decide, rfl⟩

/-- C9 amended: `create_issue` fails exactly when the tracker status is at
least 400, with an error carrying the status and the body truncated to 300
characters; on any status below 400 it returns the parsed response. -/
theorem C9_publish_error_threshold (resp : TrackerResponse) :
    (400 ≤ resp.status →
      create_issue resp = Except.error
        ("GitHub API error " ++ toString resp.status ++ ": " ++ strTake resp.text 300)) ∧
    (resp.status < 400 → create_issue resp = Except.ok resp) := by
  refine ⟨fun h => ?_, fun h => ?_⟩
  · unfold create_issue
    rw [if_pos h]
  · unfold create_issue
    rw [if_neg (by omega)]

/-- C9 witness: a 422 failure carries status and body; a 201 success returns
the response. -/
theorem C9_witness :
    create_issue ⟨422, "bad", "u"⟩ = Except.error "GitHub API error 422: bad" ∧
    create_issue ⟨201, "done", "u"⟩ = Except.ok ⟨201, "done", "u"⟩ :=
  ⟨(C9_publish_error_threshold ⟨422, "bad", "u"⟩).1 (by decide),
   (C9_publish_error_threshold ⟨201, "done", "u"⟩).2 (by decide)⟩

/-- C5, as stated, is false: a three-segment path is not `exactly owner+name`,
yet `parse_repo` accepts it (the source only requires at least two segments),
returning the first two segments. -/
theorem C5_counterexample :
    parse_repo "https://github.com/a/b/c" = Except.ok ("a", "b") := rfl

/-- C5 amended: the canonical URL, its trailing-slash form and its
`.git`-suffixed form parse to the same (owner, repo) pair; a non-github host
and a single-segment path are rejected; and every accepted URL has netloc
`github.com` (case-insensitively) and a path of at least two nonempty
segments, of which the first is the owner and the second, minus a trailing
`.git`, is the repo — segments beyond the second are ignored. -/
theorem C5_parse_repo_contract :
    (parse_repo "https://github.com/octo/hello" = Except.ok ("octo", "hello") ∧
     parse_repo "https://github.com/octo/hello/" = Except.ok ("octo", "hello") ∧
     parse_repo "https://github.com/octo/hello.git" = Except.ok ("octo", "hello")) ∧
    (parse_repo "https://gitlab.com/a/b" =
       Except.error "Repo URL must be a github.com URL" ∧
     parse_repo "https://github.com/owner" =
       Except.error "Repo URL must look like https://github.com/owner/repo") ∧
    (∀ url o r, parse_repo url = Except.ok (o, r) →
      strLower (urlparse (strTrim url)).netloc = "github.com" ∧
      ∃ r0 rest,
        (strSplitChar '/' (urlparse (strTrim url)).path).filter (fun p => p != "") =
          o :: r0 :: rest ∧ r = stripGitSuffix r0) := by
  refine ⟨⟨rfl, rfl, rfl⟩, ⟨rfl, rfl⟩, ?_⟩
  intro url o r h
  unfold parse_repo at h
  by_cases hn : strLower (urlparse (strTrim url)).netloc = "github.com"
  · refine ⟨hn, ?_⟩
    rw [if_neg (by simp [hn])] at h
    rcases hp : (strSplitChar '/' (urlparse (strTrim url)).path).filter
        (fun p => p != "") with _ | ⟨o0, _ | ⟨r0, rest⟩⟩
    · rw [hp] at h
      exact absurd h (by simp)
    · rw [hp] at h
      exact absurd h (by simp)
    · rw [hp] at h
      simp only [Except.ok.injEq, Prod.mk.injEq] at h
      refine ⟨r0, rest, ?_, h.2.symm⟩
      simp only [hp, h.1]
  · rw [if_pos (by simpa using hn)] at h
    exact absurd h (by simp)

/-- C5 witness: the general inversion applied to the canonical URL. -/
theorem C5_witness :
    strLower (urlparse (strTrim "https://github.com/octo/hello")).netloc =
      "github.com" ∧
    ∃ r0 rest,
      (strSplitChar '/' (urlparse (strTrim "https://github.com/octo/hello")).path).filter
        (fun p => p != "") = "octo" :: r0 :: rest ∧
      "hello" = stripGitSuffix r0 :=
  C5_parse_repo_contract.2.2 "https://github.com/octo/hello" "octo" "hello" rfl

/-- A trivial filesystem: the walk yields nothing and no key file exists. -/
def emptyFs : FsModel := ⟨[], fun d => d, fun _ => none⟩

/-- Concrete collaborators for sample runs: no API key, failing model call,
failing clone, empty filesystem. -/
def sampleDeps : AnalyzeDeps :=
  ⟨none, fun _ => Except.error "no key",
   Except.error "clone failed: repository not found", emptyFs⟩

/-- C4 amended: a URL that fails the trusted-host pre-check gets the
structured error dict with an empty effect trace (no filesystem or network
side effects). The pre-check is the only validation `analyze_repo` performs. -/
theorem C4_wrong_host_rejected (url : String) (deps : AnalyzeDeps) (tmp : String)
    (h : strStarts (strTrim url) "https://github.com/" = false) :
    analyze_repo url deps tmp =
      (Except.ok (AnalyzeResponse.invalid "Invalid GitHub repo URL"), []) := by
  simp [analyze_repo, h]

/-- C4 witness: a wrong-host URL is rejected with no side effects. -/
theorem C4_witness :
    analyze_repo "https://example.com/a/b" sampleDeps "tmp" =
      (Except.ok (AnalyzeResponse.invalid "Invalid GitHub repo URL"), []) :=
  C4_wrong_host_rejected "https://example.com/a/b" sampleDeps "tmp" rfl

/-- C4, as stated, is false for a malformed single-segment path:
`https://github.com/owner` passes the `startswith` check, so `analyze_repo`
creates the scratch directory and attempts the network clone (side effects
beyond validation), and the acquisition failure propagates as an exception
instead of a structured error value. -/
theorem C4_counterexample :
    (analyze_repo "https://github.com/owner" sampleDeps "tmp").1 =
      Except.error "clone failed: repository not found" ∧
    (analyze_repo "https://github.com/owner" sampleDeps "tmp").2 =
      [Effect.mkdtempE "tmp", Effect.cloneE "https://github.com/owner" "tmp/owner",
       Effect.rmtreeE "tmp"] :=
  ⟨rfl, rfl⟩

/-- C2 confirmed: whenever the URL passes the trusted-host check, no path at
or under the scratch directory survives `analyze_repo`, on every exit path
(acquisition failure raising included), because the `finally`-equivalent
`rmtree` is the last effect of every non-validation path. -/
theorem C2_scratch_cleanup (url : String) (deps : AnalyzeDeps) (tmp : String)
    (dirs0 : List String)
    (h : strStarts (strTrim url) "https://github.com/" = true) :
    ∀ p ∈ runEffects dirs0 (analyze_repo url deps tmp).2, pathUnder tmp p = false := by
  intro p hp
  rcases hd : deps.cloneResult with e | u <;>
    simp [analyze_repo, h, hd, runEffects, applyEffect, List.mem_filter] at hp <;>
    rcases hp with ⟨_, hp⟩ | ⟨_, hp⟩ <;> exact hp

/-- C2 witness: a concrete run over the filesystem `["keep"]`; the surviving
path is not under the scratch root. -/
theorem C2_witness : pathUnder "tmp" "keep" = false := by
  have h := C2_scratch_cleanup "https://github.com/a/b" sampleDeps "tmp" ["keep"] rfl
  exact h "keep" (by decide)

/-- Extract the diagnostic `ai_error` field from a run that returned the
full result dict; `none` for a raised exception or the validation error. -/
def respAiError : Except String AnalyzeResponse → Option (Option String)
  | Except.ok (AnalyzeResponse.result r) => some r.ai_error
  | _ => none

/-- Collaborators whose review step raises with message `msg` after a
successful clone over an empty filesystem. -/
def reviewFailDeps (msg : String) : AnalyzeDeps :=
  ⟨some "k", fun _ => Except.error msg, Except.ok (), emptyFs⟩

/-- Collaborators with no API key configured and a successful clone: the
review step raises the missing-credentials error. -/
def noKeyDeps : AnalyzeDeps :=
  ⟨none, fun _ => Except.error "unreached", Except.ok (), emptyFs⟩

/-- C1, as stated, is false on one point: Python's `str(e)` of an exception
with an empty message (e.g. `MemoryError()`) is the empty string, so the
captured `ai_error` can be empty. Here the review step raises with message
`""` and the returned result's `ai_error` is `""`, not a non-empty string. -/
theorem C1_counterexample :
    respAiError (analyze_repo "https://github.com/a/b" (reviewFailDeps "") "tmp").1 =
      some (some "") ∧ ("" : String).length = 0 :=
  ⟨rfl, rfl⟩

/-- C1 amended: whenever the URL passes validation, the clone succeeds and
the review step raises with message `e`, `analyze_repo` does not raise; it
returns the full result whose findings/quick-wins/risks are exactly the
heuristic scanner's output on the extracted evidence, whose `ai_review` is
null, and whose `ai_error` is `e` itself (non-null, and non-empty exactly
when the exception's message is). -/
theorem C1_review_failure_contained (url : String) (deps : AnalyzeDeps)
    (tmp e : String)
    (hv : strStarts (strTrim url) "https://github.com/" = true)
    (hc : deps.cloneResult = Except.ok ())
    (hr : call_ai_review deps.openai_api_key (strTrim url)
      (walk_repo_summary deps.fs maxFiles).1 (walk_repo_summary deps.fs maxFiles).2
      deps.modelCall = Except.error e) :
    ∃ res, (analyze_repo url deps tmp).1 = Except.ok (AnalyzeResponse.result res) ∧
      res.findings = (basic_heuristics (walk_repo_summary deps.fs maxFiles).1
        (walk_repo_summary deps.fs maxFiles).2).1 ∧
      res.quick_wins = (basic_heuristics (walk_repo_summary deps.fs maxFiles).1
        (walk_repo_summary deps.fs maxFiles).2).2.1 ∧
      res.risks = (basic_heuristics (walk_repo_summary deps.fs maxFiles).1
        (walk_repo_summary deps.fs maxFiles).2).2.2 ∧
      res.ai_review = none ∧ res.ai_error = some e := by
  simp only [analyze_repo, hv, Bool.not_true, Bool.false_eq_true, if_false, hc, hr]
  exact ⟨_, rfl, rfl, rfl, rfl, rfl, rfl⟩

/-- C1 witness: with no API key configured the review raises the
missing-credentials error and the result surfaces exactly that message. -/
theorem C1_witness :
    respAiError (analyze_repo "https://github.com/a/b" noKeyDeps "tmp").1 =
      some (some "OPENAI_API_KEY missing. Put it in repodoctor/.env") := by
  obtain ⟨res, h1, _, _, _, _, h6⟩ :=
    C1_review_failure_contained "https://github.com/a/b" noKeyDeps "tmp"
      "OPENAI_API_KEY missing. Put it in repodoctor/.env" rfl rfl rfl
  rw [h1]
  simp [respAiError, h6]

/-- C6 confirmed: every evidence set the extractor produces has at most
`maxFiles` listed paths, every key-file key is on the allow-list, and every
key-file value is the directory sentinel or a string of at most
`maxFileChars` characters. -/
theorem C6_evidence_bounds (fs : FsModel) :
    (walk_repo_summary fs maxFiles).1.length ≤ maxFiles ∧
    ∀ kv ∈ (walk_repo_summary fs maxFiles).2,
      kv.1 ∈ important ∧
      (kv.2 = "DIRECTORY_PRESENT" ∨ kv.2.length ≤ maxFileChars) := by
  constructor
  · exact List.length_take_le maxFiles (walkFiles fs maxFiles)
  · intro kv hkv
    simp only [walk_repo_summary, List.mem_filterMap] at hkv
    obtain ⟨name, hname, hsome⟩ := hkv
    rcases hl : fs.keyLookup name with _ | entry
    · rw [hl] at hsome
      exact absurd hsome (by simp)
    · rcases entry with _ | ⟨bad, content⟩
      · rw [hl] at hsome
        simp only [Option.some.injEq] at hsome
        rw [← hsome]
        exact ⟨hname, Or.inl rfl⟩
      · rw [hl] at hsome
        simp only [Option.some.injEq] at hsome
        rw [← hsome]
        refine ⟨hname, Or.inr ?_⟩
        rcases bad with _ | _
        · exact strTake_length_le content maxFileChars
        · simp [read_text_file]

/-- C6 witness: a concrete filesystem with one key file. -/
def c6Fs : FsModel :=
  ⟨[("root", ["a.py"])], fun _ => ".",
   fun n => if n == "README.md" then some (KeyEntry.file false "hi") else none⟩

/-- C6 witness: the bounds instantiated at a concrete extraction. -/
theorem C6_witness :
    ("README.md", "hi").1 ∈ important ∧
    (("README.md", "hi").2 = "DIRECTORY_PRESENT" ∨
      ("README.md", "hi").2.length ≤ maxFileChars) :=
  (C6_evidence_bounds c6Fs).2 ("README.md", "hi") (by decide)

/-- C7 confirmed: on an evidence set with no README.md key file, no LICENSE
key file and files none of which mention "test" (case-insensitively), the
quick-wins start with the README suggestion and the risks are exactly the
no-license risk followed by the no-tests risk, in rule order. -/
theorem C7_heuristic_order (files : List String) (kc : List (String × String))
    (hR : hasKey kc "README.md" = false)
    (hL : hasKey kc "LICENSE" = false)
    (_hn : files.length = 5)
    (ht : ∀ f ∈ files, containsSub (strLower f) "test" = false) :
    (basic_heuristics files kc).2.1.head? =
      some "Add a README.md with setup and usage instructions." ∧
    "Add a README.md with setup and usage instructions." ∈
      (basic_heuristics files kc).2.1 ∧
    (basic_heuristics files kc).2.2 =
      ["No LICENSE file found.", "No obvious tests detected."] := by
  have hany : files.any (fun f => containsSub (strLower f) "test") = false := by
    rw [List.any_eq_false]
    intro f hf
    simp [ht f hf]
  simp [basic_heuristics, hR, hL, hany]

/-- C7 witness: five files, none test-like, and an empty key-file mapping. -/
theorem C7_witness :
    (basic_heuristics ["a", "b", "c", "d", "e"] []).2.1.head? =
      some "Add a README.md with setup and usage instructions." ∧
    "Add a README.md with setup and usage instructions." ∈
      (basic_heuristics ["a", "b", "c", "d", "e"] []).2.1 ∧
    (basic_heuristics ["a", "b", "c", "d", "e"] []).2.2 =
      ["No LICENSE file found.", "No obvious tests detected."] :=
  C7_heuristic_order ["a", "b", "c", "d", "e"] [] rfl rfl rfl (by decide)

/-- An issue object accepted by the schema has all four fields present as
strings with the severity in the enumeration. -/
theorem issueAccepts_shape (x : JVal) (h : issueAccepts x = true) :
    ∃ ifs, x = JVal.jobj ifs ∧
      (∃ t, lookupField ifs "title" = some (JVal.jstr t)) ∧
      (∃ sv, lookupField ifs "severity" = some (JVal.jstr sv) ∧ sv ∈ severityEnum) ∧
      (∃ ev, lookupField ifs "evidence" = some (JVal.jstr ev)) ∧
      (∃ fx, lookupField ifs "fix" = some (JVal.jstr fx)) := by
  rcases x with _ | b | n | s | xs | ifs
  · exact absurd h (by simp [issueAccepts])
  · exact absurd h (by simp [issueAccepts])
  · exact absurd h (by simp [issueAccepts])
  · exact absurd h (by simp [issueAccepts])
  · exact absurd h (by simp [issueAccepts])
  · simp only [issueAccepts, Bool.and_eq_true] at h
    refine ⟨ifs, rfl, ?_, ?_, ?_, ?_⟩
    · rcases ht : lookupField ifs "title" with _ | w
      · rw [ht] at h
        exact absurd h.1.1.1.2 (by simp)
      · rcases w with _ | b | n | t | ys | ofs <;> rw [ht] at h
        case jstr => exact ⟨t, rfl⟩
        all_goals exact absurd h.1.1.1.2 (by simp)
    · rcases hs : lookupField ifs "severity" with _ | w
      · rw [hs] at h
        exact absurd h.1.1.2 (by simp)
      · rcases w with _ | b | n | sv | ys | ofs <;> rw [hs] at h
        case jstr =>
          refine ⟨sv, rfl, ?_⟩
          have hc : severityEnum.contains sv = true := h.1.1.2
          exact List.mem_of_elem_eq_true hc
        all_goals exact absurd h.1.1.2 (by simp)
    · rcases he : lookupField ifs "evidence" with _ | w
      · rw [he] at h
        exact absurd h.1.2 (by simp)
      · rcases w with _ | b | n | ev | ys | ofs <;> rw [he] at h
        case jstr => exact ⟨ev, rfl⟩
        all_goals exact absurd h.1.2 (by simp)
    · rcases hf : lookupField ifs "fix" with _ | w
      · rw [hf] at h
        exact absurd h.2 (by simp)
      · rcases w with _ | b | n | fx | ys | ofs <;> rw [hf] at h
        case jstr => exact ⟨fx, rfl⟩
        all_goals exact absurd h.2 (by simp)

/-- C3 amended: assuming the provider contract (`strict: True` schema
enforcement: every successful model call returns schema-conformant JSON),
`call_ai_review` returns a value only when it is an object whose `top_5` is
an array of exactly five issue objects, each with title, severity, evidence
and fix present as strings and severity drawn from the four-value
enumeration. The schema does not require those strings to be non-empty, so
the call does not reject empty fields. -/
theorem C3_schema_shape (api_key : Option String) (repo_url : String)
    (file_tree : List String) (key_files : List (String × String))
    (modelCall : ReviewPayload → Except String JVal) (v : JVal)
    (hcontract : ∀ p w, modelCall p = Except.ok w → schemaAccepts w = true)
    (hok : call_ai_review api_key repo_url file_tree key_files modelCall =
      Except.ok v) :
    ∃ fs xs, v = JVal.jobj fs ∧
      lookupField fs "top_5" = some (JVal.jarr xs) ∧ xs.length = 5 ∧
      ∀ x ∈ xs, ∃ ifs, x = JVal.jobj ifs ∧
        (∃ t, lookupField ifs "title" = some (JVal.jstr t)) ∧
        (∃ sv, lookupField ifs "severity" = some (JVal.jstr sv) ∧
          sv ∈ severityEnum) ∧
        (∃ ev, lookupField ifs "evidence" = some (JVal.jstr ev)) ∧
        (∃ fx, lookupField ifs "fix" = some (JVal.jstr fx)) := by
  unfold call_ai_review at hok
  by_cases hk : api_key.getD "" == ""
  · rw [if_pos hk] at hok
    exact absurd hok (by simp)
  · rw [if_neg hk] at hok
    have hacc : schemaAccepts v = true := hcontract _ v hok
    rcases v with _ | b | n | s | ys | fs
    · exact absurd hacc (by simp [schemaAccepts])
    · exact absurd hacc (by simp [schemaAccepts])
    · exact absurd hacc (by simp [schemaAccepts])
    · exact absurd hacc (by simp [schemaAccepts])
    · exact absurd hacc (by simp [schemaAccepts])
    · simp only [schemaAccepts, Bool.and_eq_true] at hacc
      rcases h5 : lookupField fs "top_5" with _ | w
      · rw [h5] at hacc
        exact absurd hacc.1.2 (by simp)
      · rcases w with _ | b | n | s | xs | ofs <;> rw [h5] at hacc
        · exact absurd hacc.1.2 (by simp)
        · exact absurd hacc.1.2 (by simp)
        · exact absurd hacc.1.2 (by simp)
        · exact absurd hacc.1.2 (by simp)
        · have htop := hacc.1.2
          simp only [Bool.and_eq_true, beq_iff_eq, List.all_eq_true] at htop
          exact ⟨fs, xs, rfl, h5, htop.1,
            fun x hx => issueAccepts_shape x (htop.2 x hx)⟩
        · exact absurd hacc.1.2 (by simp)

/-- A schema-conformant review whose issue fields are all non-empty. -/
def goodIssue : JVal :=
  JVal.jobj [("title", JVal.jstr "t"), ("severity", JVal.jstr "high"),
    ("evidence", JVal.jstr "e"), ("fix", JVal.jstr "f")]

/-- A full schema-conformant review output. -/
def goodReview : JVal :=
  JVal.jobj [("one_liner", JVal.jstr "fine"),
    ("top_5", JVal.jarr (List.replicate 5 goodIssue)),
    ("next_7_days_plan", JVal.jarr [JVal.jstr "step"])]

/-- C3 witness: the shape theorem applied to a concrete conformant output. -/
theorem C3_witness :
    ∃ fs xs, goodReview = JVal.jobj fs ∧
      lookupField fs "top_5" = some (JVal.jarr xs) ∧ xs.length = 5 ∧
      ∀ x ∈ xs, ∃ ifs, x = JVal.jobj ifs ∧
        (∃ t, lookupField ifs "title" = some (JVal.jstr t)) ∧
        (∃ sv, lookupField ifs "severity" = some (JVal.jstr sv) ∧
          sv ∈ severityEnum) ∧
        (∃ ev, lookupField ifs "evidence" = some (JVal.jstr ev)) ∧
        (∃ fx, lookupField ifs "fix" = some (JVal.jstr fx)) :=
  C3_schema_shape (some "k") "https://github.com/a/b" [] []
    (fun _ => Except.ok goodReview) goodReview
    (fun p w hw => by
      injection hw with h
      rw [← h]
      decide)
    rfl

/-- A review record the provider-side schema accepts although every issue
has empty title, evidence and fix. -/
def badIssue : JVal :=
  JVal.jobj [("title", JVal.jstr ""), ("severity", JVal.jstr "low"),
    ("evidence", JVal.jstr ""), ("fix", JVal.jstr "")]

/-- A full review output built from `badIssue`. -/
def badReview : JVal :=
  JVal.jobj [("one_liner", JVal.jstr "ok"),
    ("top_5", JVal.jarr (List.replicate 5 badIssue)),
    ("next_7_days_plan", JVal.jarr [])]

/-- C3, as stated, is false on the non-emptiness point: the schema accepts
issues whose title/evidence/fix are empty strings, and `call_ai_review` does
no local validation, so it returns this output instead of failing. -/
theorem C3_counterexample :
    schemaAccepts badReview = true ∧
    call_ai_review (some "key") "https://github.com/a/b" [] []
      (fun _ => Except.ok badReview) = Except.ok badReview ∧
    badIssue = JVal.jobj [("title", JVal.jstr ""), ("severity", JVal.jstr "low"),
      ("evidence", JVal.jstr ""), ("fix", JVal.jstr "")] :=
  ⟨by decide, rfl, rfl⟩

/-- Which output sequence a key file's heuristic rule feeds. -/
inductive RuleSlot where
  | quick : RuleSlot
  | risk : RuleSlot

/-- The single scanner rule keyed on the presence of an allow-listed file:
its slot and message; allow-listed files without a presence rule map to
`none`. (The large-repo and no-tests rules read the file listing, not the
key-file mapping.) -/
def keyRule : String → Option (RuleSlot × String)
  | "README.md" => some (RuleSlot.quick, "Add a README.md with setup and usage instructions.")
  | ".env.example" => some (RuleSlot.quick, "Add a .env.example for environment variables.")
  | "Dockerfile" => some (RuleSlot.quick, "Add a Dockerfile for reproducible builds.")
  | "LICENSE" => some (RuleSlot.risk, "No LICENSE file found.")
  | _ => none

/-- Adding one binding changes `hasKey` only through its own key. -/
theorem hasKey_cons (k v k2 : String) (kc : List (String × String)) :
    hasKey ((k, v) :: kc) k2 = (k == k2 || hasKey kc k2) := by
  simp [hasKey]

/-- C8 confirmed: toggling the presence of exactly one allow-listed key file
changes the scanner output in at most the single entry of that file's rule:
the findings never change; for a rule-less key nothing changes; for a keyed
rule, the only difference is that the rule's message (present when the file
is absent) is removed, the other sequence staying equal. -/
theorem C8_rule_independence (files : List String) (kc : List (String × String))
    (k v : String) (hk : k ∈ important) (habs : hasKey kc k = false) :
    (basic_heuristics files ((k, v) :: kc)).1 = (basic_heuristics files kc).1 ∧
    (match keyRule k with
     | none =>
       (basic_heuristics files ((k, v) :: kc)).2.1 =
         (basic_heuristics files kc).2.1 ∧
       (basic_heuristics files ((k, v) :: kc)).2.2 =
         (basic_heuristics files kc).2.2
     | some (RuleSlot.quick, msg) =>
       msg ∈ (basic_heuristics files kc).2.1 ∧
       (basic_heuristics files ((k, v) :: kc)).2.1 =
         (basic_heuristics files kc).2.1.filter (fun s => !(s == msg)) ∧
       (basic_heuristics files ((k, v) :: kc)).2.2 =
         (basic_heuristics files kc).2.2
     | some (RuleSlot.risk, msg) =>
       msg ∈ (basic_heuristics files kc).2.2 ∧
       (basic_heuristics files ((k, v) :: kc)).2.2 =
         (basic_heuristics files kc).2.2.filter (fun s => !(s == msg)) ∧
       (basic_heuristics files ((k, v) :: kc)).2.1 =
         (basic_heuristics files kc).2.1) := by
  simp only [important, List.mem_cons, List.not_mem_nil, or_false] at hk
  rcases hk with rfl | rfl | rfl | rfl | rfl | rfl | rfl | rfl
  · cases hE : hasKey kc ".env.example" <;> cases hD : hasKey kc "Dockerfile" <;>
      simp [keyRule, basic_heuristics, hasKey_cons, habs, hE, hD]
  · cases hT : files.any (fun f => containsSub (strLower f) "test") <;>
      simp [keyRule, basic_heuristics, hasKey_cons, habs, hT]
  · cases hR : hasKey kc "README.md" <;> cases hD : hasKey kc "Dockerfile" <;>
      simp [keyRule, basic_heuristics, hasKey_cons, habs, hR, hD]
  · simp [keyRule, basic_heuristics, hasKey_cons, habs]
  · simp [keyRule, basic_heuristics, hasKey_cons, habs]
  · cases hR : hasKey kc "README.md" <;> cases hE : hasKey kc ".env.example" <;>
      simp [keyRule, basic_heuristics, hasKey_cons, habs, hR, hE]
  · simp [keyRule, basic_heuristics, hasKey_cons, habs]
  · simp [keyRule, basic_heuristics, hasKey_cons, habs]

/-- C8 witness: toggling README.md on an empty mapping removes exactly the
README quick-win. -/
theorem C8_witness :
    "Add a README.md with setup and usage instructions." ∈
      (basic_heuristics [] []).2.1 ∧
    (basic_heuristics [] [("README.md", "x")]).2.1 =
      (basic_heuristics [] []).2.1.filter
        (fun s => !(s == "Add a README.md with setup and usage instructions.")) ∧
    (basic_heuristics [] [("README.md", "x")]).2.2 = (basic_heuristics [] []).2.2 :=
  (C8_rule_independence [] [] "README.md" "x" (by decide) rfl).2

/-- A successful `create_issue` returns the collaborator's response itself. -/
theorem create_issue_ok_eq (r resp : TrackerResponse)
    (h : create_issue r = Except.ok resp) : resp = r := by
  unfold create_issue at h
  by_cases hs : 400 ≤ r.status
  · rw [if_pos hs] at h
    exact absurd h (by simp)
  · rw [if_neg hs] at h
    injection h with h2
    exact h2.symm

/-- The publish loop submits an in-order front segment of its pending list. -/
theorem create_issues_loop_sent (token owner repo : String)
    (tracker : String → String → String → String → String → TrackerResponse) :
    ∀ (pending : List IssueRec) (created : List String) (sent : List IssueRec),
      ∃ n, (create_issues_loop token owner repo tracker pending created sent).2 =
        sent ++ pending.take n := by
  intro pending
  induction pending with
  | nil =>
    intro created sent
    exact ⟨0, by simp [create_issues_loop]⟩
  | cons it rest ih =>
    intro created sent
    unfold create_issues_loop
    cases hc : create_issue (tracker token owner repo it.title (issue_body it)) with
    | error e => exact ⟨1, by simp⟩
    | ok resp =>
      obtain ⟨n, hn⟩ := ih (created ++ [resp.html_url]) (sent ++ [it])
      exact ⟨n + 1, by simp [hn]⟩

/-- When the publish loop succeeds it has sent every pending issue and
returned their tracker identifiers in order. -/
theorem create_issues_loop_ok (token owner repo : String)
    (tracker : String → String → String → String → String → TrackerResponse) :
    ∀ (pending : List IssueRec) (created : List String) (sent : List IssueRec)
      (created' : List String),
      (create_issues_loop token owner repo tracker pending created sent).1 =
        Except.ok created' →
      created' = created ++ pending.map (fun it =>
        (tracker token owner repo it.title (issue_body it)).html_url) ∧
      (create_issues_loop token owner repo tracker pending created sent).2 =
        sent ++ pending := by
  intro pending
  induction pending with
  | nil =>
    intro created sent created' h
    simp only [create_issues_loop, Except.ok.injEq] at h
    exact ⟨h.symm ▸ (by simp), by simp [create_issues_loop]⟩
  | cons it rest ih =>
    intro created sent created' h
    unfold create_issues_loop at h ⊢
    cases hc : create_issue (tracker token owner repo it.title (issue_body it)) with
    | error e =>
      rw [hc] at h
      exact absurd h (by simp)
    | ok resp =>
      rw [hc] at h
      obtain ⟨h1, h2⟩ := ih (created ++ [resp.html_url]) (sent ++ [it]) created' h
      have hre : resp = tracker token owner repo it.title (issue_body it) :=
        create_issue_ok_eq _ _ hc
      constructor
      · rw [h1, hre]
        simp
      · rw [h2]
        simp

/-- C10 confirmed: the publish entry point submits at most the first 5
supplied issue records — the submission trace is always an in-order front
segment of `issues.take 5` (so the 6th and 7th of a 7-issue request are
never sent) — and on success the returned identifiers are those of exactly
the first 5, in processing order. -/
theorem C10_first_five_only (repo_url token : String) (issues : List IssueRec)
    (tracker : String → String → String → String → String → TrackerResponse) :
    (∃ n, (create_issues repo_url token issues tracker).2 = (issues.take 5).take n) ∧
    (∀ o r created, parse_repo repo_url = Except.ok (o, r) →
      (create_issues repo_url token issues tracker).1 = Except.ok created →
      (create_issues repo_url token issues tracker).2 = issues.take 5 ∧
      created = (issues.take 5).map (fun it =>
        (tracker (strTrim token) o r it.title (issue_body it)).html_url)) := by
  unfold create_issues
  cases hp : parse_repo repo_url with
  | error e =>
    refine ⟨⟨0, by simp⟩, ?_⟩
    intro o r created hpo
    exact absurd hpo (by simp)
  | ok pr =>
    obtain ⟨o0, r0⟩ := pr
    constructor
    · obtain ⟨n, hn⟩ :=
        create_issues_loop_sent (strTrim token) o0 r0 tracker (issues.take 5) [] []
      exact ⟨n, by simpa using hn⟩
    · intro o r created hpo hfst
      simp only [Except.ok.injEq, Prod.mk.injEq] at hpo
      obtain ⟨rfl, rfl⟩ := hpo
      obtain ⟨h1, h2⟩ :=
        create_issues_loop_ok (strTrim token) o0 r0 tracker (issues.take 5) [] []
          created hfst
      exact ⟨by simpa using h2, by simpa using h1⟩

/-- Seven concrete issue records. -/
def c10Issues : List IssueRec :=
  [⟨"t1", "low", "e", "f"⟩, ⟨"t2", "low", "e", "f"⟩, ⟨"t3", "low", "e", "f"⟩,
   ⟨"t4", "low", "e", "f"⟩, ⟨"t5", "low", "e", "f"⟩, ⟨"t6", "low", "e", "f"⟩,
   ⟨"t7", "low", "e", "f"⟩]

/-- An always-successful tracker collaborator. -/
def c10Tracker : String → String → String → String → String → TrackerResponse :=
  fun _ _ _ title _ => ⟨201, "", "https://x/" ++ title⟩

/-- C10 witness: with 7 issues and a successful tracker, exactly the first
five are submitted. -/
theorem C10_witness :
    (create_issues "https://github.com/a/b" "tok" c10Issues c10Tracker).2 =
      c10Issues.take 5 := by
  obtain ⟨hsent, -⟩ :=
    (C10_first_five_only "https://github.com/a/b" "tok" c10Issues c10Tracker).2
      "a" "b" ["https://x/t1", "https://x/t2", "https://x/t3", "https://x/t4",
        "https://x/t5"] rfl rfl
  exact hsent

end RepoDoctor
